import Mathlib

/-!
Verification development for the keye-interactive-grid repository.

The TypeScript sources are shallowly embedded: React `useState` hooks become
pure state-transition functions, `Map` objects become functions from keys to
optional values, asynchronous persistence calls become an explicit
`PersistOutcome` parameter (the collaborator either reports success or a
failure message; a `Promise` that always resolves is a total function), and
JavaScript numbers are idealised as exact rationals (plus signed infinity
where `parseFloat` can produce it).  Record fields named `end` in the source
keep that name via guillemets.
-/

namespace Grid

/-! ## JavaScript string and number primitives -/

/-- ASCII whitespace as recognised by JS `trim`, `parseFloat` leading-space
skipping and friends (Unicode spaces are not exercised by this code base). -/
def isWsChar (c : Char) : Bool :=
  c == ' ' || c == '\t' || c == '\n' || c == '\r' || c == '\x0b' || c == '\x0c'

def isDigitChar (c : Char) : Bool :=
  '0' ≤ c && c ≤ '9'

/-- Does `s` start with the pattern `t`? -/
def charsStartsWith : List Char → List Char → Bool
  | _, [] => true
  | [], _ :: _ => false
  | c :: cs, d :: ds => c == d && charsStartsWith cs ds

/-- Does `t` occur somewhere inside `s`?  (JS `String.prototype.includes`.) -/
def charsHasSub : List Char → List Char → Bool
  | [], t => t.isEmpty
  | s@(_ :: rest), t => charsStartsWith s t || charsHasSub rest t

/-- JS `s.includes(t)`. -/
def jsIncludes (s t : String) : Bool :=
  charsHasSub s.data t.data

/-- JS `s.trim()` (ASCII whitespace). -/
def jsTrimStr (s : String) : String :=
  ⟨((s.data.dropWhile isWsChar).reverse.dropWhile isWsChar).reverse⟩

def charToLower (c : Char) : Char :=
  if 'A' ≤ c && c ≤ 'Z' then Char.ofNat (c.toNat + 32) else c

/-- JS `s.toLowerCase()` restricted to ASCII. -/
def jsToLower (s : String) : String :=
  ⟨s.data.map charToLower⟩

/-- Numeric value of a list of decimal digits. -/
def digitsVal (ds : List Char) : Nat :=
  ds.foldl (fun acc c => 10 * acc + (c.toNat - '0'.toNat)) 0

/-- A non-NaN JS number: either a finite value (idealised as an exact
rational) or a signed infinity. -/
inductive JsNum where
  | fin (q : ℚ)
  | inf (neg : Bool)
deriving DecidableEq

/-- JS `parseFloat` on a character list: skip leading whitespace, optional
sign, then the longest `Infinity` / decimal-literal prefix.  `none` models
`NaN` (no parsable prefix). -/
def parseFloatChars (cs : List Char) : Option JsNum :=
  let cs0 := cs.dropWhile isWsChar
  let signed : Bool × List Char :=
    match cs0 with
    | '-' :: rest => (true, rest)
    | '+' :: rest => (false, rest)
    | _ => (false, cs0)
  let neg := signed.1
  let cs1 := signed.2
  if charsStartsWith cs1 "Infinity".data then
    some (JsNum.inf neg)
  else
    let ipSplit := cs1.span isDigitChar
    let ip := ipSplit.1
    let cs2 := ipSplit.2
    let fpSplit : List Char × List Char :=
      match cs2 with
      | '.' :: rest => rest.span isDigitChar
      | _ => ([], cs2)
    let fp := fpSplit.1
    let cs3 := fpSplit.2
    if ip.isEmpty && fp.isEmpty then
      none
    else
      let e : Int :=
        match cs3 with
        | c :: rest =>
          if c == 'e' || c == 'E' then
            let esigned : Bool × List Char :=
              match rest with
              | '-' :: r => (true, r)
              | '+' :: r => (false, r)
              | _ => (false, rest)
            let eds := (esigned.2.span isDigitChar).1
            if eds.isEmpty then 0
            else if esigned.1 then -(digitsVal eds : Int) else (digitsVal eds : Int)
          else 0
        | [] => 0
      -- (intDigits.fracDigits) × 10^e, built as one exact rational
      let num : Nat := digitsVal ip * 10 ^ fp.length + digitsVal fp
      let v : ℚ :=
        if 0 ≤ e then mkRat (num * 10 ^ e.toNat : Nat) (10 ^ fp.length)
        else mkRat num (10 ^ fp.length * 10 ^ (-e).toNat)
      some (JsNum.fin (if neg then -v else v))

/-- JS `parseFloat`; `none` is `NaN`. -/
def parseFloat (s : String) : Option JsNum :=
  parseFloatChars s.data

/-- A raw cell value: `string | number` in the source. -/
inductive Value where
  | vStr (s : String)
  | vNum (n : JsNum)
deriving DecidableEq

def intToStr (i : ℤ) : String :=
  if i < 0 then "-" ++ toString i.natAbs else toString i.natAbs

/-- JS `String(number)`, idealised for rationals: exact for integers (the
only numeric values the verified scenarios stringify); non-integral
rationals are rendered with up to 17 fractional digits. -/
def ratToStr (q : ℚ) : String :=
  if q.den = 1 then intToStr q.num
  else
    let sign := if q < 0 then "-" else ""
    let a : ℚ := |q|
    let ipart : Nat := a.floor.toNat
    let fracScaled : Nat := ((a - (ipart : ℚ)) * (10 : ℚ) ^ (17 : ℕ)).floor.toNat
    let fracDigits := (List.replicate (17 - (toString fracScaled).length) '0').asString
        ++ toString fracScaled
    sign ++ toString ipart ++ "." ++ ⟨fracDigits.data.reverse.dropWhile (· == '0') |>.reverse⟩

def jsNumToStr (n : JsNum) : String :=
  match n with
  | .fin q => ratToStr q
  | .inf neg => if neg then "-Infinity" else "Infinity"

/-- JS `String(value)` for a raw cell value. -/
def jsValueToStr (v : Value) : String :=
  match v with
  | .vStr s => s
  | .vNum n => jsNumToStr n

/-! ## Grid data model (src/components/grid/types/common.ts) -/

structure CellPosition where
  row : Nat
  column : Nat
deriving DecidableEq

structure CellRange where
  start : CellPosition
  «end» : CellPosition
deriving DecidableEq

inductive Alignment where
  | left
  | center
  | right
deriving DecidableEq

inductive CellType where
  | text
  | number
  | currency
  | percentage
  | product
deriving DecidableEq

inductive SectionTag where
  | Values
  | YoYGrowth
  | PercentOfTotal
  | Product
deriving DecidableEq

/-- `CellFormatting`; the optional (`?:`) fields are `Option`s. -/
structure CellFormatting where
  id : String
  bold : Option Bool := none
  italic : Option Bool := none
  strikethrough : Option Bool := none
  alignment : Option Alignment := none
  backgroundColor : Option String := none
  textColor : Option String := none
deriving DecidableEq

/-- `Partial<CellFormatting>`: every field may be absent. -/
structure PartialCellFormatting where
  id : Option String := none
  bold : Option Bool := none
  italic : Option Bool := none
  strikethrough : Option Bool := none
  alignment : Option Alignment := none
  backgroundColor : Option String := none
  textColor : Option String := none
deriving DecidableEq

/-- JS object spread `{...cur, ...p}`: a field present in `p` overrides. -/
def mergeFormatting (cur : CellFormatting) (p : PartialCellFormatting) : CellFormatting where
  id := match p.id with | some v => v | none => cur.id
  bold := match p.bold with | some v => some v | none => cur.bold
  italic := match p.italic with | some v => some v | none => cur.italic
  strikethrough := match p.strikethrough with | some v => some v | none => cur.strikethrough
  alignment := match p.alignment with | some v => some v | none => cur.alignment
  backgroundColor := match p.backgroundColor with | some v => some v | none => cur.backgroundColor
  textColor := match p.textColor with | some v => some v | none => cur.textColor

/-- `CellMetadata`.  `editable` is the extra field `useEditData`'s
`getCellMetadata` attaches beside the declared interface; `validation` is
never read and is omitted. -/
structure CellMetadata where
  type : CellType
  «section» : SectionTag
  formatting : Option CellFormatting := none
  editable : Option Bool := none
deriving DecidableEq

/-- `SelectedCells = { type; single?; range?; multiple? }`: the tag plus the
payload matching the tag (which the source still checks for `null`). -/
inductive SelectedCells where
  | single (single : Option CellPosition)
  | range (range : Option CellRange)
  | multiple (multiple : Option (List CellPosition))
deriving DecidableEq

structure SelectionState where
  selectedCells : Option SelectedCells
  isSelecting : Bool
  selectionStart : Option CellPosition
  activeCell : Option CellPosition
deriving DecidableEq

/-! ## Selection Engine (useSelection, src/unnamed/part_008)

Each `useCallback` updater becomes a pure function on `SelectionState`. -/

def initialSelectionState : SelectionState :=
  { selectedCells := none, isSelecting := false, selectionStart := none, activeCell := none }

def selectCell (position : CellPosition) : SelectionState :=
  { selectedCells := some (.single (some position))
    isSelecting := false
    selectionStart := none
    activeCell := some position }

def selectRange (start «end» : CellPosition) (prev : SelectionState) : SelectionState :=
  { prev with
    selectedCells := some (.range (some { start := start, «end» := «end» }))
    isSelecting := false
    selectionStart := none
    activeCell := some start }

def toggleCellSelection (position : CellPosition) (prev : SelectionState) : SelectionState :=
  match prev.selectedCells with
  | none =>
    { prev with selectedCells := some (.single (some position)) }
  | some (.single (some p)) =>
    if p.row = position.row ∧ p.column = position.column then
      { prev with selectedCells := none }
    else
      { prev with selectedCells := some (.multiple (some [p, position])) }
  | some (.multiple (some l)) =>
    match l.findIdx? (fun cell => cell.row = position.row ∧ cell.column = position.column) with
    | some existingIndex =>
      let newMultiple := l.eraseIdx existingIndex
      if newMultiple.length = 1 then
        { prev with selectedCells := some (.single newMultiple.head?) }
      else if newMultiple.length = 0 then
        { prev with selectedCells := none }
      else
        { prev with selectedCells := some (.multiple (some newMultiple)) }
    | none =>
      { prev with selectedCells := some (.multiple (some (l ++ [position]))) }
  | some (.range _) =>
    { prev with selectedCells := some (.single (some position)) }
  -- a `single`/`multiple` tag with a null payload falls through every branch
  | some (.single none) => prev
  | some (.multiple none) => prev

def startSelection (position : CellPosition) (prev : SelectionState) : SelectionState :=
  { prev with
    isSelecting := true
    selectionStart := some position
    selectedCells := some (.single (some position))
    activeCell := some position }

def updateSelection (position : CellPosition) (prev : SelectionState) : SelectionState :=
  match prev.selectionStart with
  | none => prev
  | some selStart =>
    if !prev.isSelecting then prev
    else if selStart.row = position.row ∧ selStart.column = position.column then
      { prev with
        selectedCells := some (.single (some position))
        activeCell := some position }
    else
      { prev with
        selectedCells := some (.range (some { start := selStart, «end» := position }))
        activeCell := some selStart }

def endSelection (prev : SelectionState) : SelectionState :=
  { prev with isSelecting := false, selectionStart := none }

def clearSelection : SelectionState :=
  { selectedCells := none, isSelecting := false, selectionStart := none, activeCell := none }

def isCellSelected (position : CellPosition) (s : SelectionState) : Bool :=
  match s.selectedCells with
  | none => false
  | some (.single (some p)) =>
    p.row == position.row && p.column == position.column
  | some (.range (some rg)) =>
    (rg.start.row == position.row && rg.start.column == position.column) ||
    (rg.«end».row == position.row && rg.«end».column == position.column)
  | some (.multiple (some l)) =>
    l.any (fun cell => cell.row == position.row && cell.column == position.column)
  | some _ => false

def isCellInRange (position : CellPosition) (s : SelectionState) : Bool :=
  match s.selectedCells with
  | some (.range (some rg)) =>
    let minRow := min rg.start.row rg.«end».row
    let maxRow := max rg.start.row rg.«end».row
    let minCol := min rg.start.column rg.«end».column
    let maxCol := max rg.start.column rg.«end».column
    decide (minRow ≤ position.row ∧ position.row ≤ maxRow ∧
            minCol ≤ position.column ∧ position.column ≤ maxCol)
  | _ => false

def getCurrentCell (s : SelectionState) : Option CellPosition :=
  match s.selectedCells with
  | some (.single sp) => sp
  | _ => s.activeCell

def getActiveCell (s : SelectionState) : Option CellPosition :=
  s.activeCell

inductive Direction where
  | next
  | previous
deriving DecidableEq

/-- The new active cell computed inside `navigateWithinRange` (the inner
if-chains of the source, factored out so iteration can be stated). -/
def navStep (direction : Direction) (rg : CellRange) (activeCell : CellPosition) : CellPosition :=
  let minRow := min rg.start.row rg.«end».row
  let maxRow := max rg.start.row rg.«end».row
  let minCol := min rg.start.column rg.«end».column
  let maxCol := max rg.start.column rg.«end».column
  match direction with
  | .next =>
    if activeCell.column < maxCol then
      { activeCell with column := activeCell.column + 1 }
    else if activeCell.row < maxRow then
      { row := activeCell.row + 1, column := minCol }
    else
      { row := minRow, column := minCol }
  | .previous =>
    if activeCell.column > minCol then
      { activeCell with column := activeCell.column - 1 }
    else if activeCell.row > minRow then
      { row := activeCell.row - 1, column := maxCol }
    else
      { row := maxRow, column := maxCol }

/-- `navigateWithinRange`: returns the boolean result together with the new
state. -/
def navigateWithinRange (direction : Direction) (s : SelectionState) : Bool × SelectionState :=
  match s.selectedCells, s.activeCell with
  | some (.range (some rg)), some activeCell =>
    (true, { s with activeCell := some (navStep direction rg activeCell) })
  | _, _ => (false, s)

/-! ## Formatting utilities (src/components/grid/utils/formatting.ts,
src/unnamed/part_005) -/

/-- `` `${reportId}:${row}:${column}` ``. -/
def generateCellKey (reportId : String) (row column : Nat) : String :=
  reportId ++ ":" ++ toString row ++ ":" ++ toString column

/-- `getSelectedCells`: flatten a selection to its list of positions.  The
source reads `selectionHook.selectionState`; the state is passed directly. -/
def getSelectedCells (s : SelectionState) : List CellPosition :=
  match s.selectedCells with
  | none => []
  | some (.single sp) =>
    match sp with
    | some p => [p]
    | none => []
  | some (.range rp) =>
    match rp with
    | none => []
    | some rg =>
      let minRow := min rg.start.row rg.«end».row
      let maxRow := max rg.start.row rg.«end».row
      let minCol := min rg.start.column rg.«end».column
      let maxCol := max rg.start.column rg.«end».column
      (List.range' minRow (maxRow + 1 - minRow)).flatMap fun row =>
        (List.range' minCol (maxCol + 1 - minCol)).map fun col =>
          { row := row, column := col }
  | some (.multiple mp) => mp.getD []

/-- `getMetadataForCell` (the Metadata Resolver).  The source mints the
formatting id from `Date.now()`/`Math.random()`; that nondeterministic fresh
id is abstracted as the `freshId` argument. -/
def getMetadataForCell (freshId : String) (column «section» : String) (isTotal : Bool) :
    CellMetadata :=
  if column = "product" then
    { type := .product
      «section» := .Product
      formatting := some { id := freshId, bold := some isTotal, alignment := some .left } }
  else if «section» = "Values" then
    { type := .currency
      «section» := .Values
      formatting := some { id := freshId, bold := some isTotal, alignment := some .left } }
  else if «section» = "YoY Growth" then
    { type := .percentage
      «section» := .YoYGrowth
      formatting := some { id := freshId, bold := some isTotal, alignment := some .left } }
  else if «section» = "Percent of Total" then
    { type := .percentage
      «section» := .PercentOfTotal
      formatting := some { id := freshId, bold := some isTotal, alignment := some .left } }
  else
    { type := .text
      «section» := .Values
      formatting := some { id := freshId, alignment := some .left } }

/-! ## Grid Model data (AdapterOutput, useReportData/utils.ts) -/

/-- One flattened row: a JS object mapping internal column ids to raw
values. -/
def Row := String → Option Value

def setRowField (r : Row) (k : String) (v : Value) : Row :=
  fun k2 => if k2 == k then some v else r k2

/-- The slice of `ColumnMetadata` the verified operations read. -/
structure ColumnMetadata where
  id : String
  originalKey : String
  originalSection : String
deriving DecidableEq

/-- The slice of `SectionMetadata` the verified operations read. -/
structure SectionMetadata where
  name : String
  columns : List ColumnMetadata

/-- The metadata map `Map<string, CellMetadata>` as a function. -/
def MetaMap := String → Option CellMetadata

def setMeta (m : MetaMap) (k : String) (v : CellMetadata) : MetaMap :=
  fun k2 => if k2 == k then some v else m k2

/-- `AdapterOutput`: the Grid Model. -/
structure AdapterData where
  rows : List Row
  sections : List SectionMetadata
  columnOrder : List String
  columnMapping : String → Option ColumnMetadata
  cellMetadata : MetaMap

/-- Result of an asynchronous persistence call: success, or a failure
carrying the response/exception message (a thrown error and a non-success
status are handled identically by every caller). -/
inductive PersistOutcome where
  | success
  | failure (message : String)
deriving DecidableEq

structure CellUpdate where
  position : CellPosition
  formatting : PartialCellFormatting

/-- One iteration of the batch loop in `updateMultipleCellsFormatting`:
merge the update into the cell's existing formatting, or skip (with a
warning in the source) when the cell has no metadata or no formatting. -/
def applyCellUpdate (reportId : String) (m : MetaMap) (u : CellUpdate) : MetaMap :=
  let cellKey := generateCellKey reportId u.position.row u.position.column
  match m cellKey with
  | some currentMetadata =>
    match currentMetadata.formatting with
    | some f =>
      setMeta m cellKey
        { currentMetadata with formatting := some (mergeFormatting f u.formatting) }
    | none => m  -- "No formatting metadata found" warning: skip, not fatal
  | none => m

/-- `updateMultipleCellsFormatting` (useReportData.ts): snapshot, optimistic
batch apply, then keep on success or restore the snapshot on failure.  In
the source `newData.cellMetadata` aliases `data.cellMetadata`, so the loop's
reads see earlier writes of the same batch: the fold threads the map
accordingly; `originalCellMetadata` is the pre-batch copy. -/
def updateMultipleCellsFormatting (reportId : String) (persist : PersistOutcome)
    (data : AdapterData) (cellUpdates : List CellUpdate) : AdapterData :=
  if cellUpdates.length = 0 then data
  else
    let originalCellMetadata := data.cellMetadata
    let newMeta := cellUpdates.foldl (applyCellUpdate reportId) data.cellMetadata
    match persist with
    | .success => { data with cellMetadata := newMeta }
    | .failure _ => { data with cellMetadata := originalCellMetadata }

inductive FormatAttr where
  | bold
  | italic
  | strikethrough
deriving DecidableEq

def attrField (f : CellFormatting) : FormatAttr → Option Bool
  | .bold => f.bold
  | .italic => f.italic
  | .strikethrough => f.strikethrough

/-- `currentMetadata?.formatting?.[formattingType] || false`. -/
def readAttr (md : Option CellMetadata) (attr : FormatAttr) : Bool :=
  match md with
  | some meta =>
    match meta.formatting with
    | some f => (attrField f attr).getD false
    | none => false
  | none => false

/-- `{ [formattingType]: b }`. -/
def mkToggleUpdate (attr : FormatAttr) (b : Bool) : PartialCellFormatting :=
  match attr with
  | .bold => { bold := some b }
  | .italic => { italic := some b }
  | .strikethrough => { strikethrough := some b }

/-- `applyFormattingToSelection` on the batch path (the Grid always supplies
`updateMultipleCellsFormatting`): one toggle update per selected cell, each
negating that cell's own current value. -/
def applyFormattingToSelection (reportId : String) (persist : PersistOutcome)
    (sel : SelectionState) (formattingType : FormatAttr) (data : AdapterData) : AdapterData :=
  let selectedCells := getSelectedCells sel
  let cellUpdates := selectedCells.map fun cell =>
    let cellKey := generateCellKey reportId cell.row cell.column
    let currentValue := readAttr (data.cellMetadata cellKey) formattingType
    { position := cell, formatting := mkToggleUpdate formattingType (!currentValue) }
  updateMultipleCellsFormatting reportId persist data cellUpdates

/-- `applyAlignmentToSelection` on the batch path. -/
def applyAlignmentToSelection (reportId : String) (persist : PersistOutcome)
    (sel : SelectionState) (alignment : Alignment) (data : AdapterData) : AdapterData :=
  let selectedCells := getSelectedCells sel
  let cellUpdates := selectedCells.map fun cell =>
    ({ position := cell, formatting := { alignment := some alignment } } : CellUpdate)
  updateMultipleCellsFormatting reportId persist data cellUpdates

/-! ## Edit Session (useEditData, src/unnamed/part_010) -/

structure EditState where
  editingCell : Option CellPosition
  editValue : String
  isEditValid : Bool
  editError : Option String
  isSaving : Bool
deriving DecidableEq

def initialEditState : EditState :=
  { editingCell := none, editValue := "", isEditValid := true, editError := none,
    isSaving := false }

/-- `validateValue`: empty (after trim) is valid; numeric types need
`!isNaN(parseFloat(value))`; other types are always valid. -/
def validateValue (value : String) (metadata : CellMetadata) : Bool :=
  if jsTrimStr value = "" then true
  else
    match metadata.type with
    | .number | .currency | .percentage => (parseFloat value).isSome
    | .product | .text => true

/-- `convertValue`: numeric types parse with `parseFloat`, keeping the raw
string when the parse is NaN; other types keep the raw string. -/
def convertValue (value : String) (metadata : CellMetadata) : Value :=
  match metadata.type with
  | .number | .currency | .percentage =>
    match parseFloat value with
    | some n => .vNum n
    | none => .vStr value
  | _ => .vStr value

/-- `getCellMetadata` inside `useEditData` (the "simplified" per-cell
metadata used for validation and conversion).  `columnKey` is the internal
column id, `none` when the caller indexed `columnOrder` out of range.  The
formatting object in the source is built without an `id` (the
`@ts-expect-error` site); it is modelled with an empty id. -/
def getCellMetadata (position : CellPosition) (columnKey : Option String)
    (data : AdapterData) : CellMetadata :=
  let isTotal : Bool :=
    match data.rows.get? position.row with
    | some row =>
      (jsToLower (match row "product" with
        | some v => jsValueToStr v
        | none => "undefined")) == "total"
    | none => false
  let sectionFound := data.sections.find? fun s =>
    s.columns.any fun col => columnKey == some col.id
  let sectionName : String :=
    match sectionFound with
    | some s => if s.name = "" then "Unknown" else s.name
    | none => "Unknown"
  let mappedSection : SectionTag :=
    if sectionName = "Product" then .Product
    else if jsIncludes sectionName "Growth" || jsIncludes sectionName "YoY" then .YoYGrowth
    else if jsIncludes sectionName "Percent" || jsIncludes sectionName "percent" then
      .PercentOfTotal
    else .Values
  { type :=
      if jsIncludes sectionName "Growth" then .percentage
      else if jsIncludes sectionName "Value" then .currency
      else .text
    editable := some (!isTotal && !(columnKey == some "product"))
    «section» := mappedSection
    formatting := some { id := "", alignment := some (if columnKey == some "product"
      then Alignment.left else Alignment.right) } }

structure CellDataOut where
  rawValue : Value
  metadata : CellMetadata
  columnKey : String
  internalColumnId : Option String

/-- `getCellData`. -/
def getCellData (data : AdapterData) (position : CellPosition) : CellDataOut :=
  let internalColumnId := data.columnOrder.get? position.column
  let rawValue : Value :=
    match data.rows.get? position.row, internalColumnId with
    | some row, some cid => (row cid).getD (.vStr "")
    | _, _ => .vStr ""
  let columnMetadata :=
    match internalColumnId with
    | some cid => data.columnMapping cid
    | none => none
  -- `columnMetadata?.originalKey || internalColumnId`
  let columnKey : String :=
    match columnMetadata with
    | some cm => if cm.originalKey = "" then internalColumnId.getD "undefined" else cm.originalKey
    | none => internalColumnId.getD "undefined"
  { rawValue := rawValue
    metadata := getCellMetadata position internalColumnId data
    columnKey := columnKey
    internalColumnId := internalColumnId }

/-- `startEdit`. -/
def startEdit (data : AdapterData) (position : CellPosition) (st : EditState) : EditState :=
  { st with
    editingCell := some position
    editValue := jsValueToStr (getCellData data position).rawValue
    isEditValid := true
    editError := none }

/-- `cancelEdit`. -/
def cancelEdit (st : EditState) : EditState :=
  { st with editingCell := none, editValue := "", isEditValid := true, editError := none }

/-- `updateEditValue`. -/
def updateEditValue (value : String) (data : AdapterData) (st : EditState) : EditState :=
  let st1 := { st with editValue := value }
  match st.editingCell with
  | none => st1
  | some editingCell =>
    let valid := validateValue value (getCellData data editingCell).metadata
    { st1 with
      isEditValid := valid
      editError := if valid then none else st.editError }

/-- `saveEdit`: optimistic write of the converted value into the row,
persistence call, rollback to the backup and error on failure.  The `async`
function catches every exception and therefore always resolves: it is a
total function of the persistence outcome.  (Out-of-range positions would
make JS write to property key `"undefined"`; the verified statements always
hypothesise in-range positions.) -/
def saveEdit (persist : PersistOutcome) (data : AdapterData) (st : EditState) :
    EditState × AdapterData :=
  match st.editingCell with
  | none => (st, data)
  | some editingCell =>
    if !st.isEditValid then (st, data)
    else
      let cd := getCellData data editingCell
      let convertedValue := convertValue st.editValue cd.metadata
      let backupData := data
      let targetRow : Row :=
        match data.rows.get? editingCell.row with
        | some r => r
        | none => fun _ => none
      let cid := cd.internalColumnId.getD "undefined"
      let targetRow2 :=
        if cid == "product" then setRowField targetRow "product" convertedValue
        else setRowField targetRow cid convertedValue
      let newData := { data with rows := data.rows.set editingCell.row targetRow2 }
      match persist with
      | .success =>
        ({ st with editingCell := none, editValue := "", editError := none, isSaving := false },
         newData)
      | .failure message =>
        let errorMessage := if message = "" then "Failed to update report" else message
        ({ st with editError := some errorMessage, isSaving := false }, backupData)

/-! ## Keyboard Router (useKeyboardEvents, src/unnamed/part_007) -/

structure KeyEvent where
  key : String
  shiftKey : Bool
  ctrlKey : Bool
  metaKey : Bool

structure AppState where
  selection : SelectionState
  edit : EditState
  data : AdapterData

/-- `handleKeyDown`: the single global key handler.  Persistence calls that
a dispatched action may issue take the `persist` outcome; the edit-mode Tab
branch runs the selection move in the promise continuation after `saveEdit`
resolves (which it always does). -/
def handleKeyDown (reportId : String) (totalRows totalColumns : Nat)
    (persist : PersistOutcome) (e : KeyEvent) (st : AppState) : AppState :=
  match getCurrentCell st.selection with
  | none => st
  | some currentCell =>
    let isEditing := st.edit.editingCell.isSome
    if isEditing then
      if e.key = "Enter" then
        if st.edit.isEditValid then
          let r := saveEdit persist st.data st.edit
          { st with edit := r.1, data := r.2 }
        else st
      else if e.key = "Escape" then
        { st with edit := cancelEdit st.edit }
      else if e.key = "Tab" then
        if st.edit.isEditValid then
          let r := saveEdit persist st.data st.edit
          let sel2 :=
            if e.shiftKey then
              if currentCell.column > 0 then
                selectCell { currentCell with column := currentCell.column - 1 }
              else st.selection
            else
              if currentCell.column < totalColumns - 1 then
                selectCell { currentCell with column := currentCell.column + 1 }
              else st.selection
          { selection := sel2, edit := r.1, data := r.2 }
        else st
      else st
    else
      let key := jsToLower e.key
      if (e.ctrlKey || e.metaKey) && (key = "b" || key = "i") then
        let attr := if key = "b" then FormatAttr.bold else FormatAttr.italic
        { st with data := applyFormattingToSelection reportId persist st.selection attr st.data }
      else if (e.ctrlKey || e.metaKey) && e.shiftKey && key = "s" then
        { st with data :=
            applyFormattingToSelection reportId persist st.selection .strikethrough st.data }
      else if (e.ctrlKey || e.metaKey) && e.shiftKey && (key = "l" || key = "e" || key = "r") then
        let alignment := if key = "l" then Alignment.left
          else if key = "e" then Alignment.center else Alignment.right
        { st with data :=
            applyAlignmentToSelection reportId persist st.selection alignment st.data }
      else if e.key = "Escape" then
        { st with selection := clearSelection }
      else if e.key = "Tab" then
        let nav := navigateWithinRange (if e.shiftKey then .previous else .next) st.selection
        if nav.1 then { st with selection := nav.2 }
        else
          if e.shiftKey then
            if currentCell.column > 0 then
              { st with selection := selectCell { currentCell with column := currentCell.column - 1 } }
            else st
          else
            if currentCell.column < totalColumns - 1 then
              { st with selection := selectCell { currentCell with column := currentCell.column + 1 } }
            else st
      else if e.key = "Enter" || e.key = "F2" then
        match getActiveCell st.selection with
        | some activeCell => { st with edit := startEdit st.data activeCell st.edit }
        | none => st
      else if e.key = "ArrowLeft" then
        if currentCell.column > 0 then
          { st with selection := selectCell { currentCell with column := currentCell.column - 1 } }
        else st
      else if e.key = "ArrowRight" then
        if currentCell.column < totalColumns - 1 then
          { st with selection := selectCell { currentCell with column := currentCell.column + 1 } }
        else st
      else if e.key = "ArrowUp" then
        if currentCell.row > 0 then
          { st with selection := selectCell { currentCell with row := currentCell.row - 1 } }
        else st
      else if e.key = "ArrowDown" then
        if currentCell.row < totalRows - 1 then
          { st with selection := selectCell { currentCell with row := currentCell.row + 1 } }
        else st
      else st

/-! ## Specification-side helpers -/

/-- Membership in the normalized bounding box of a range (inclusive). -/
def InBox (rg : CellRange) (p : CellPosition) : Prop :=
  min rg.start.row rg.«end».row ≤ p.row ∧ p.row ≤ max rg.start.row rg.«end».row ∧
  min rg.start.column rg.«end».column ≤ p.column ∧
  p.column ≤ max rg.start.column rg.«end».column

instance (rg : CellRange) (p : CellPosition) : Decidable (InBox rg p) := by
  unfold InBox; infer_instance

/-- Width of the normalized bounding box. -/
def boxW (rg : CellRange) : Nat :=
  max rg.start.column rg.«end».column + 1 - min rg.start.column rg.«end».column

/-- Height of the normalized bounding box. -/
def boxH (rg : CellRange) : Nat :=
  max rg.start.row rg.«end».row + 1 - min rg.start.row rg.«end».row

/-- Row-major index of a position inside the normalized bounding box. -/
def boxIdx (rg : CellRange) (p : CellPosition) : Nat :=
  (p.row - min rg.start.row rg.«end».row) * boxW rg +
    (p.column - min rg.start.column rg.«end».column)

/-- The Selection Engine operations, for quantifying over call sequences. -/
inductive SelOp where
  | selectCellOp (p : CellPosition)
  | selectRangeOp (s e : CellPosition)
  | toggleCellSelectionOp (p : CellPosition)
  | startSelectionOp (p : CellPosition)
  | updateSelectionOp (p : CellPosition)
  | endSelectionOp
  | clearSelectionOp
  | navigateWithinRangeOp (d : Direction)
deriving DecidableEq

def applySelOp (s : SelectionState) (op : SelOp) : SelectionState :=
  match op with
  | .selectCellOp p => selectCell p
  | .selectRangeOp a b => selectRange a b s
  | .toggleCellSelectionOp p => toggleCellSelection p s
  | .startSelectionOp p => startSelection p s
  | .updateSelectionOp p => updateSelection p s
  | .endSelectionOp => endSelection s
  | .clearSelectionOp => clearSelection
  | .navigateWithinRangeOp d => (navigateWithinRange d s).2

def runSelOps (ops : List SelOp) (s : SelectionState) : SelectionState :=
  ops.foldl applySelOp s

def isToggleOp : SelOp → Bool
  | .toggleCellSelectionOp _ => true
  | _ => false

/-- The range half of the claimed invariant: whenever a range is selected,
the active cell exists and lies inside its normalized bounding box. -/
def RangeActiveInv (s : SelectionState) : Prop :=
  ∀ rg, s.selectedCells = some (.range (some rg)) →
    ∃ a, s.activeCell = some a ∧ InBox rg a

/-- The full claimed invariant. -/
def SelInv (s : SelectionState) : Prop :=
  (s.selectedCells ≠ none → s.activeCell ≠ none) ∧ RangeActiveInv s

/-- An empty Grid Model, used to instantiate universally quantified data. -/
def emptyAdapterData : AdapterData :=
  { rows := [], sections := [], columnOrder := [],
    columnMapping := fun _ => none, cellMetadata := fun _ => none }

def currencyColumnMeta : ColumnMetadata :=
  { id := "values_x", originalKey := "x", originalSection := "Values" }

def currencySection : SectionMetadata :=
  { name := "Values", columns := [currencyColumnMeta] }

/-- A one-row Grid Model with a single currency column (raw value `1500`),
used to instantiate edit-session scenarios. -/
def currencyRowData : AdapterData :=
  { rows := [fun k =>
      if k == "values_x" then some (.vNum (.fin 1500))
      else if k == "product" then some (.vStr "Product A")
      else none]
    sections := [currencySection]
    columnOrder := ["values_x"]
    columnMapping := fun k => if k == "values_x" then some currencyColumnMeta else none
    cellMetadata := fun _ => none }

/-- Does the map hold metadata *with formatting* at this key?  (The batch
loop skips exactly the cells where this is false.) -/
def hasFmtAt (m : MetaMap) (k : String) : Bool :=
  match m k with
  | some md => md.formatting.isSome
  | none => false

/-- A Grid Model with one formatted cell (bold), keyed for `report1000`
position (0,0), used to instantiate formatting-toggle scenarios. -/
def formattedCellData : AdapterData :=
  { rows := [], sections := [], columnOrder := []
    columnMapping := fun _ => none
    cellMetadata := fun k =>
      if k == generateCellKey "report1000" 0 0 then
        some { type := .currency, «section» := .Values
               formatting := some { id := "f0", bold := some true } }
      else none }

/-- Concrete application state used to instantiate keyboard-router
scenarios: single selection on cell (0,0) with a valid open edit session. -/
def tabWitnessState : AppState :=
  { selection := selectCell { row := 0, column := 0 }
    edit := { editingCell := some { row := 0, column := 0 }
              editValue := "7"
              isEditValid := true
              editError := none
              isSaving := false }
    data := currencyRowData }

/-! # Theorems -/

theorem getSelectedCells_range_eq (s : SelectionState) (rg : CellRange) :
    getSelectedCells { s with selectedCells := some (.range (some rg)) } =
      (List.range' (min rg.start.row rg.«end».row)
          (max rg.start.row rg.«end».row + 1 - min rg.start.row rg.«end».row)).flatMap
        (fun row =>
          (List.range' (min rg.start.column rg.«end».column)
              (max rg.start.column rg.«end».column + 1 -
                min rg.start.column rg.«end».column)).map
            fun col => { row := row, column := col }) := rfl

/-- **C2** (confirmed).  A failed batched formatting commit (thrown error or
non-success status) leaves the Grid Model — in particular the cell-metadata
map, for every cell key — exactly equal to the pre-batch snapshot: the
rollback is coarse-grained and total, with no partial retention of the
optimistic updates. -/
theorem C2_batch_failure_restores_snapshot (reportId message : String)
    (data : AdapterData) (cellUpdates : List CellUpdate) :
    updateMultipleCellsFormatting reportId (.failure message) data cellUpdates = data ∧
    ∀ k, (updateMultipleCellsFormatting reportId (.failure message) data
        cellUpdates).cellMetadata k = data.cellMetadata k := by
  have h : updateMultipleCellsFormatting reportId (.failure message) data cellUpdates = data := by
    unfold updateMultipleCellsFormatting
    split
    · rfl
    · rfl
  exact ⟨h, fun k => by rw [h]⟩

/-- **C9** (confirmed).  When `getCurrentCell()` is `null` the keyboard
handler returns before dispatching anything: selection state, edit state and
the Grid Model are all left unchanged, for every key event, even when an
edit session is open. -/
theorem C9_no_current_cell_ignores_all_keys (reportId : String) (totalRows totalColumns : Nat)
    (persist : PersistOutcome) (e : KeyEvent) (st : AppState)
    (h : getCurrentCell st.selection = none) :
    handleKeyDown reportId totalRows totalColumns persist e st = st := by
  unfold handleKeyDown
  rw [h]

/-- Witness for C9: an open edit session on a state whose selection is the
all-none initial state; an `Enter` keypress changes nothing. -/
theorem C9_no_current_cell_ignores_all_keys_witness :
    handleKeyDown "report1000" 5 5 .success
      { key := "Enter", shiftKey := false, ctrlKey := false, metaKey := false }
      { selection := initialSelectionState
        edit := { initialEditState with editingCell := some { row := 0, column := 0 } }
        data := emptyAdapterData } =
      { selection := initialSelectionState
        edit := { initialEditState with editingCell := some { row := 0, column := 0 } }
        data := emptyAdapterData } :=
  C9_no_current_cell_ignores_all_keys "report1000" 5 5 .success
    { key := "Enter", shiftKey := false, ctrlKey := false, metaKey := false } _ rfl

/-- **C6** (confirmed).  Flattening after `selectRange(a,b)` equals
flattening after `selectRange(b,a)`; the flattened range is exactly the
min/max-normalized bounding box (in the row-major order fixed by
`getSelectedCells_range_eq`); a `single` selection flattens to its one
position and a `multiple` selection flattens to its stored list verbatim,
without de-duplication. -/
theorem C6_flatten_order_independence (a b : CellPosition) (s : SelectionState)
    (p q : CellPosition) (l : List CellPosition) :
    getSelectedCells (selectRange a b s) = getSelectedCells (selectRange b a s) ∧
    (q ∈ getSelectedCells (selectRange a b s) ↔ InBox { start := a, «end» := b } q) ∧
    getSelectedCells { s with selectedCells := some (.single (some p)) } = [p] ∧
    getSelectedCells { s with selectedCells := some (.multiple (some l)) } = l := by
  refine ⟨?_, ?_, rfl, rfl⟩
  · show getSelectedCells { s with selectedCells := some (.range (some { start := a, «end» := b })) }
      = getSelectedCells { s with selectedCells := some (.range (some { start := b, «end» := a })) }
    rw [getSelectedCells_range_eq, getSelectedCells_range_eq]
    simp only
    rw [Nat.min_comm a.row, Nat.max_comm a.row, Nat.min_comm a.column, Nat.max_comm a.column]
  · show q ∈ getSelectedCells
      { s with selectedCells := some (.range (some { start := a, «end» := b })) } ↔ _
    rw [getSelectedCells_range_eq]
    unfold InBox
    simp only [List.mem_flatMap, List.mem_map, List.mem_range'_1]
    constructor
    · rintro ⟨r, hr, c, hc, rfl⟩
      dsimp only
      omega
    · intro h
      exact ⟨q.row, by omega, q.column, by omega, rfl⟩

/-- Counterexample for C3: `getMetadataForCell` matches section names by
exact equality, not substring: a section literally named `"revenue"` falls
to the default `text`/`Values` branch (the claim requires `currency`), and
in that default branch the total-row flag does not set `bold` at all. -/
theorem C3_counterexample :
    (getMetadataForCell "fmt0" "revenue2020" "revenue" false).type = CellType.text ∧
    CellType.text ≠ CellType.currency ∧
    (getMetadataForCell "fmt0" "colX" "Unknown Section" true).formatting.map
      (fun f => f.bold) = some none := by
  decide

/-- **C3** (corrected).  What `getMetadataForCell` actually returns: the
`product` column gives `product`/`Product`; a section named exactly
`"Values"` gives `currency`, exactly `"YoY Growth"` gives
`percentage`/`YoY Growth`, exactly `"Percent of Total"` gives
`percentage`/`Percent of Total`; anything else gives `text`/`Values`.
`bold := isTotal` is set in the four matched branches but absent in the
default branch, and every branch left-aligns. -/
theorem C3_metadata_resolver_exact_sections (freshId col sec : String) (isTotal : Bool) :
    (col = "product" → getMetadataForCell freshId col sec isTotal =
      { type := .product, «section» := .Product,
        formatting := some { id := freshId, bold := some isTotal, alignment := some .left } }) ∧
    (col ≠ "product" → sec = "Values" → getMetadataForCell freshId col sec isTotal =
      { type := .currency, «section» := .Values,
        formatting := some { id := freshId, bold := some isTotal, alignment := some .left } }) ∧
    (col ≠ "product" → sec = "YoY Growth" → getMetadataForCell freshId col sec isTotal =
      { type := .percentage, «section» := .YoYGrowth,
        formatting := some { id := freshId, bold := some isTotal, alignment := some .left } }) ∧
    (col ≠ "product" → sec = "Percent of Total" → getMetadataForCell freshId col sec isTotal =
      { type := .percentage, «section» := .PercentOfTotal,
        formatting := some { id := freshId, bold := some isTotal, alignment := some .left } }) ∧
    (col ≠ "product" → sec ≠ "Values" → sec ≠ "YoY Growth" → sec ≠ "Percent of Total" →
      getMetadataForCell freshId col sec isTotal =
      { type := .text, «section» := .Values,
        formatting := some { id := freshId, alignment := some .left } }) := by
  refine ⟨?_, ?_, ?_, ?_, ?_⟩ <;> intros <;> simp [getMetadataForCell, *]

/-- Witness for C3: the product branch and the default branch evaluated at
concrete arguments. -/
theorem C3_metadata_resolver_exact_sections_witness :
    getMetadataForCell "f1" "product" "anything" true =
      { type := .product, «section» := .Product,
        formatting := some { id := "f1", bold := some true, alignment := some .left } } ∧
    getMetadataForCell "f1" "colA" "Unknown" false =
      { type := .text, «section» := .Values,
        formatting := some { id := "f1", alignment := some .left } } :=
  ⟨(C3_metadata_resolver_exact_sections "f1" "product" "anything" true).1 rfl,
   (C3_metadata_resolver_exact_sections "f1" "colA" "Unknown" false).2.2.2.2
     (by decide) (by decide) (by decide) (by decide)⟩

/-- Counterexample for C4: for a numeric-typed cell the code accepts
`"Infinity"` (whose parse is not a finite number) and a whitespace-only
string (which is neither empty nor parsable), so "valid iff empty or parses
to a finite number" is false as stated. -/
theorem C4_counterexample :
    validateValue "Infinity" { type := CellType.currency, «section» := SectionTag.Values }
      = true ∧
    "Infinity" ≠ "" ∧
    (∀ q : ℚ, parseFloat "Infinity" ≠ some (JsNum.fin q)) ∧
    validateValue " " { type := CellType.currency, «section» := SectionTag.Values } = true ∧
    " " ≠ "" ∧ parseFloat " " = none := by
  refine ⟨by decide, by decide, ?_, by decide, by decide, by decide⟩
  intro q h
  rw [(by decide : parseFloat "Infinity" = some (JsNum.inf false))] at h
  simp at h

/-- **C4** (corrected).  After `updateEditValue(v)` on an open session:
for numeric declared types, `isValid` is true iff `v` trims to empty or
`parseFloat(v)` is not NaN (so numeric-prefixed strings and `"Infinity"`
count as valid); non-numeric types are always valid; and `isValid` is
exactly `validateValue` of the cell's metadata, with `error` reset to none
whenever the new value is valid. -/
theorem C4_updateEditValue_validation (v : String) (md : CellMetadata)
    (data : AdapterData) (st : EditState) (cell : CellPosition) :
    ((md.type = .number ∨ md.type = .currency ∨ md.type = .percentage) →
      (validateValue v md = true ↔ (jsTrimStr v = "" ∨ (parseFloat v).isSome = true))) ∧
    ((md.type = .text ∨ md.type = .product) → validateValue v md = true) ∧
    (st.editingCell = some cell →
      (updateEditValue v data st).isEditValid
          = validateValue v (getCellData data cell).metadata ∧
      ((updateEditValue v data st).isEditValid = true →
        (updateEditValue v data st).editError = none)) := by
  refine ⟨?_, ?_, ?_⟩
  · intro htype
    unfold validateValue
    by_cases hv : jsTrimStr v = ""
    · simp [hv]
    · rcases htype with h | h | h <;> simp [h, hv]
  · intro htype
    unfold validateValue
    by_cases hv : jsTrimStr v = ""
    · simp [hv]
    · rcases htype with h | h <;> simp [h, hv]
  · intro hcell
    unfold updateEditValue
    rw [hcell]
    constructor
    · rfl
    · intro hvalid
      dsimp only at hvalid ⊢
      rw [hvalid]
      simp

/-- Counterexample for C8: an open, *valid* edit session on a currency cell
whose current value is the empty string (empty is valid) commits the raw
string `""`, not a parsed number — so "commits the parsed numeric value"
does not hold for every open, valid numeric edit session. -/
theorem C8_counterexample :
    validateValue "" (getCellData currencyRowData { row := 0, column := 0 }).metadata = true ∧
    (getCellData currencyRowData { row := 0, column := 0 }).metadata.type
      = CellType.currency ∧
    ((saveEdit .success currencyRowData
        { editingCell := some { row := 0, column := 0 }, editValue := "",
          isEditValid := true, editError := none, isSaving := false }).2.rows.get? 0).map
      (fun r => r "values_x") = some (some (Value.vStr "")) := by
  refine ⟨by decide, by decide, by decide⟩

/-- **C8** (corrected).  For an open, valid edit session at an in-range
position, `saveEdit` (with the write succeeding) commits
`convertValue(currentValue)` to the Grid Model row: for numeric declared
types that is the `parseFloat` of `currentValue` as a number whenever the
parse is not NaN, and the raw string otherwise (e.g. the empty string);
for non-numeric types it is always the raw string.  `saveEdit` is a no-op
when no session is open or the session is invalid. -/
theorem C8_saveEdit_commits_converted_value (data : AdapterData) (st : EditState)
    (pos : CellPosition) (cid : String)
    (hopen : st.editingCell = some pos)
    (hvalid : st.isEditValid = true)
    (hrow : pos.row < data.rows.length)
    (hcid : data.columnOrder.get? pos.column = some cid) :
    ((saveEdit .success data st).2.rows.get? pos.row).map (fun r => r cid)
      = some (some (convertValue st.editValue (getCellData data pos).metadata)) ∧
    (∀ (val : String) (md : CellMetadata),
      ((md.type = .number ∨ md.type = .currency ∨ md.type = .percentage) →
        convertValue val md = (match parseFloat val with
          | some n => Value.vNum n
          | none => Value.vStr val)) ∧
      ((md.type = .text ∨ md.type = .product) → convertValue val md = Value.vStr val)) ∧
    (saveEdit .success data st).1.editingCell = none ∧
    (∀ (persist : PersistOutcome) (st2 : EditState),
      (st2.editingCell = none → saveEdit persist data st2 = (st2, data)) ∧
      (st2.isEditValid = false → saveEdit persist data st2 = (st2, data))) := by
  have hic : (getCellData data pos).internalColumnId = data.columnOrder.get? pos.column := rfl
  refine ⟨?_, ?_, ?_, ?_⟩
  · unfold saveEdit
    rw [hopen]
    dsimp only
    rw [hic, hcid]
    dsimp only [Option.getD]
    split
    · next h => rw [hvalid] at h; simp at h
    · dsimp only
      rw [List.get?_set_eq_of_lt _ hrow]
      dsimp only [Option.map]
      split
      · next h =>
        have hp : cid = "product" := by simpa using h
        subst hp
        simp [setRowField]
      · simp [setRowField]
  · intro val md
    constructor
    · rintro (h | h | h) <;> simp [convertValue, h]
    · rintro (h | h) <;> simp [convertValue, h]
  · unfold saveEdit
    rw [hopen, hvalid]
    rfl
  · intro persist st2
    constructor
    · intro h
      unfold saveEdit
      rw [h]
    · intro h
      unfold saveEdit
      cases hc : st2.editingCell with
      | none => rfl
      | some c => rw [h]; rfl

/-- Witness for C8: the spec's scenario — start editing the currency cell
holding `1500`, type `"abc"` (invalid), type `"2500"` (valid), save: the
number `2500` is committed, not the string `"2500"`. -/
theorem C8_saveEdit_commits_converted_value_witness :
    (startEdit currencyRowData { row := 0, column := 0 } initialEditState).editValue
      = "1500" ∧
    (updateEditValue "abc" currencyRowData
      (startEdit currencyRowData { row := 0, column := 0 } initialEditState)).isEditValid
      = false ∧
    (updateEditValue "2500" currencyRowData
      (updateEditValue "abc" currencyRowData
        (startEdit currencyRowData { row := 0, column := 0 } initialEditState))).isEditValid
      = true ∧
    ((saveEdit .success currencyRowData
        (updateEditValue "2500" currencyRowData
          (updateEditValue "abc" currencyRowData
            (startEdit currencyRowData { row := 0, column := 0 }
              initialEditState)))).2.rows.get? 0).map (fun r => r "values_x")
      = some (some (Value.vNum (JsNum.fin 2500))) := by
  refine ⟨by decide, by decide, by decide, ?_⟩
  have h := (C8_saveEdit_commits_converted_value currencyRowData
    (updateEditValue "2500" currencyRowData
      (updateEditValue "abc" currencyRowData
        (startEdit currencyRowData { row := 0, column := 0 } initialEditState)))
    { row := 0, column := 0 } "values_x" (by decide) (by decide) (by decide) (by decide)).1
  rw [h]
  decide

/-- **C10** (confirmed).  `saveEdit` is a total function of the persistence
outcome (the source catches every failure internally), so the edit-mode Tab
handler always runs its post-save continuation: with a valid open session,
Tab produces the same clamped one-column selection move whether the write
succeeds or fails, and on failure the edit session remains open with the
failure recorded in its error slot. -/
theorem C10_tab_commit_move_independent_of_persistence (reportId : String)
    (totalRows totalColumns : Nat) (message : String) (sh ct mt : Bool)
    (st : AppState) (q c : CellPosition)
    (hopen : st.edit.editingCell = some q)
    (hvalid : st.edit.isEditValid = true)
    (hcur : getCurrentCell st.selection = some c) :
    (handleKeyDown reportId totalRows totalColumns (.failure message)
        { key := "Tab", shiftKey := sh, ctrlKey := ct, metaKey := mt } st).selection
      = (handleKeyDown reportId totalRows totalColumns .success
        { key := "Tab", shiftKey := sh, ctrlKey := ct, metaKey := mt } st).selection ∧
    (handleKeyDown reportId totalRows totalColumns (.failure message)
        { key := "Tab", shiftKey := sh, ctrlKey := ct, metaKey := mt } st).selection
      = (if sh then
          (if c.column > 0 then selectCell { c with column := c.column - 1 }
           else st.selection)
        else
          (if c.column < totalColumns - 1 then selectCell { c with column := c.column + 1 }
           else st.selection)) ∧
    (handleKeyDown reportId totalRows totalColumns (.failure message)
        { key := "Tab", shiftKey := sh, ctrlKey := ct, metaKey := mt } st).edit.editingCell
      = some q ∧
    (handleKeyDown reportId totalRows totalColumns (.failure message)
        { key := "Tab", shiftKey := sh, ctrlKey := ct, metaKey := mt } st).edit.editError.isSome
      = true ∧
    (handleKeyDown reportId totalRows totalColumns .success
        { key := "Tab", shiftKey := sh, ctrlKey := ct, metaKey := mt } st).edit.editingCell
      = none := by
  have hsaveF : saveEdit (.failure message) st.data st.edit =
      ({ editingCell := some q
         editValue := st.edit.editValue
         isEditValid := true
         editError := some (if message = "" then "Failed to update report" else message)
         isSaving := false },
       st.data) := by
    unfold saveEdit
    rw [hopen, hvalid]
    rfl
  have hsaveS : (saveEdit .success st.data st.edit).1 =
      { editingCell := none
        editValue := ""
        isEditValid := true
        editError := none
        isSaving := false } := by
    unfold saveEdit
    rw [hopen, hvalid]
    rfl
  unfold handleKeyDown
  rw [hcur]
  simp only [hopen, hvalid, Option.isSome_some, if_true]
  rw [if_neg (show ¬ (("Tab" : String) = "Enter") by decide),
      if_neg (show ¬ (("Tab" : String) = "Escape") by decide)]
  simp only [eq_self_iff_true, if_true]
  rw [hsaveF, hsaveS]
  simp

/-- Witness for C10: concrete failing save on a two-column grid; Tab still
moves the selection right and the session stays open with an error. -/
theorem C10_tab_commit_move_independent_of_persistence_witness :
    (handleKeyDown "report1000" 1 2 (.failure "boom")
        { key := "Tab", shiftKey := false, ctrlKey := false, metaKey := false }
        tabWitnessState).selection
      = selectCell { row := 0, column := 1 } ∧
    (handleKeyDown "report1000" 1 2 (.failure "boom")
        { key := "Tab", shiftKey := false, ctrlKey := false, metaKey := false }
        tabWitnessState).edit.editingCell
      = some { row := 0, column := 0 } := by
  have h := C10_tab_commit_move_independent_of_persistence "report1000" 1 2 "boom"
    false false false tabWitnessState
    { row := 0, column := 0 } { row := 0, column := 0 } rfl rfl rfl
  refine ⟨?_, h.2.2.1⟩
  rw [h.2.1]
  decide

/-- Witness for C4: the currency type accepts a parsable value, text
accepts anything, and `updateEditValue` on an open session agrees with
`validateValue`. -/
theorem C4_updateEditValue_validation_witness :
    (validateValue "2500" { type := CellType.currency, «section» := SectionTag.Values } = true ↔
      (jsTrimStr "2500" = "" ∨ (parseFloat "2500").isSome = true)) ∧
    validateValue "hello" { type := CellType.text, «section» := SectionTag.Values } = true ∧
    (updateEditValue "abc" currencyRowData tabWitnessState.edit).isEditValid
      = validateValue "abc" (getCellData currencyRowData { row := 0, column := 0 }).metadata :=
  ⟨(C4_updateEditValue_validation "2500"
      { type := CellType.currency, «section» := SectionTag.Values }
      emptyAdapterData initialEditState { row := 0, column := 0 }).1 (Or.inr (Or.inl rfl)),
   (C4_updateEditValue_validation "hello"
      { type := CellType.text, «section» := SectionTag.Values }
      emptyAdapterData initialEditState { row := 0, column := 0 }).2.1 (Or.inl rfl),
   ((C4_updateEditValue_validation "abc"
      { type := CellType.text, «section» := SectionTag.Values }
      currencyRowData tabWitnessState.edit { row := 0, column := 0 }).2.2 rfl).1⟩

theorem setMeta_lookup (m : MetaMap) (k : String) (v : CellMetadata) (k2 : String) :
    setMeta m k v k2 = if k2 == k then some v else m k2 := rfl

theorem attrField_merge_toggle (f : CellFormatting) (attr : FormatAttr) (b : Bool) :
    attrField (mergeFormatting f (mkToggleUpdate attr b)) attr = some b := by
  cases attr <;> rfl

theorem hasFmtAt_applyCellUpdate (reportId : String) (m : MetaMap) (u : CellUpdate)
    (k : String) :
    hasFmtAt (applyCellUpdate reportId m u) k = hasFmtAt m k := by
  cases hm : m (generateCellKey reportId u.position.row u.position.column) with
  | none => simp [applyCellUpdate, hm]
  | some md =>
    cases hf : md.formatting with
    | none => simp [applyCellUpdate, hm, hf]
    | some f =>
      by_cases hk : k = generateCellKey reportId u.position.row u.position.column
      · subst hk
        simp [applyCellUpdate, hasFmtAt, setMeta, hm, hf]
      · simp [applyCellUpdate, hasFmtAt, setMeta, hm, hf, hk]

theorem readAttr_applyCellUpdate (reportId : String) (m : MetaMap) (u : CellUpdate)
    (k : String) (attr : FormatAttr) (b : Bool)
    (hu : u.formatting = mkToggleUpdate attr b) :
    readAttr (applyCellUpdate reportId m u k) attr =
      if k = generateCellKey reportId u.position.row u.position.column ∧
          hasFmtAt m k = true
      then b else readAttr (m k) attr := by
  cases hm : m (generateCellKey reportId u.position.row u.position.column) with
  | none =>
    by_cases hk : k = generateCellKey reportId u.position.row u.position.column
    · subst hk
      simp [applyCellUpdate, hasFmtAt, hm]
    · simp [applyCellUpdate, hm, hk]
  | some md =>
    cases hf : md.formatting with
    | none =>
      by_cases hk : k = generateCellKey reportId u.position.row u.position.column
      · subst hk
        simp [applyCellUpdate, hasFmtAt, hm, hf]
      · simp [applyCellUpdate, hm, hf, hk]
    | some f =>
      by_cases hk : k = generateCellKey reportId u.position.row u.position.column
      · subst hk
        simp [applyCellUpdate, hasFmtAt, setMeta, hm, hf, readAttr, hu, attrField_merge_toggle]
      · simp [applyCellUpdate, hasFmtAt, setMeta, hm, hf, hk, readAttr]

theorem hasFmtAt_foldBatch (reportId : String) (ups : List CellUpdate) (m : MetaMap)
    (k : String) :
    hasFmtAt (ups.foldl (applyCellUpdate reportId) m) k = hasFmtAt m k := by
  induction ups generalizing m with
  | nil => rfl
  | cons u rest ih =>
    rw [List.foldl_cons, ih, hasFmtAt_applyCellUpdate]

theorem readAttr_foldBatch (reportId : String) (attr : FormatAttr) (bmap : String → Bool)
    (ups : List CellUpdate) :
    ∀ (m : MetaMap) (k : String),
    (∀ u ∈ ups, u.formatting =
      mkToggleUpdate attr (bmap (generateCellKey reportId u.position.row u.position.column))) →
    readAttr (ups.foldl (applyCellUpdate reportId) m k) attr =
      if (ups.any fun u =>
            generateCellKey reportId u.position.row u.position.column == k) = true ∧
          hasFmtAt m k = true
      then bmap k else readAttr (m k) attr := by
  induction ups with
  | nil =>
    intro m k _
    simp
  | cons u rest ih =>
    intro m k h
    have hu := h u (List.mem_cons_self u rest)
    have hrest := fun v hv => h v (List.mem_cons_of_mem u hv)
    rw [List.foldl_cons, ih (applyCellUpdate reportId m u) k hrest,
      hasFmtAt_applyCellUpdate, readAttr_applyCellUpdate reportId m u k attr _ hu,
      List.any_cons]
    by_cases hf : hasFmtAt m k = true
    · by_cases ha : (rest.any fun v =>
          generateCellKey reportId v.position.row v.position.column == k) = true
      · simp [hf, ha]
      · by_cases hk : k = generateCellKey reportId u.position.row u.position.column
        · subst hk
          simp [hf, ha]
        · have hk2 : (generateCellKey reportId u.position.row u.position.column == k)
              = false := by
            simp [Ne.symm hk]
          simp [hf, ha, hk, hk2]
    · simp [hf]

theorem applyFormatting_readAttr (reportId : String) (sel : SelectionState)
    (attr : FormatAttr) (d : AdapterData) (p : CellPosition)
    (hp : p ∈ getSelectedCells sel) :
    readAttr ((applyFormattingToSelection reportId .success sel attr d).cellMetadata
        (generateCellKey reportId p.row p.column)) attr
      = (if hasFmtAt d.cellMetadata (generateCellKey reportId p.row p.column) = true
         then !(readAttr (d.cellMetadata (generateCellKey reportId p.row p.column)) attr)
         else readAttr (d.cellMetadata (generateCellKey reportId p.row p.column)) attr) ∧
    hasFmtAt (applyFormattingToSelection reportId .success sel attr d).cellMetadata
        (generateCellKey reportId p.row p.column)
      = hasFmtAt d.cellMetadata (generateCellKey reportId p.row p.column) := by
  unfold applyFormattingToSelection updateMultipleCellsFormatting
  have hlen : ¬ ((getSelectedCells sel).map fun cell =>
      ({ position := cell
         formatting := mkToggleUpdate attr
           (!(readAttr (d.cellMetadata (generateCellKey reportId cell.row cell.column))
              attr)) } : CellUpdate)).length = 0 := by
    simp only [List.length_map, List.length_eq_zero]
    exact List.ne_nil_of_mem hp
  rw [if_neg hlen]
  dsimp only
  constructor
  · rw [readAttr_foldBatch reportId attr
      (fun k2 => !(readAttr (d.cellMetadata k2) attr))]
    · have hany : (((getSelectedCells sel).map fun cell =>
          ({ position := cell
             formatting := mkToggleUpdate attr
               (!(readAttr (d.cellMetadata (generateCellKey reportId cell.row cell.column))
                  attr)) } : CellUpdate)).any fun u =>
            generateCellKey reportId u.position.row u.position.column ==
              generateCellKey reportId p.row p.column) = true := by
        rw [List.any_eq_true]
        refine ⟨_, List.mem_map_of_mem _ hp, ?_⟩
        simp
      rw [hany]
      simp
    · intro u huu
      rcases List.mem_map.mp huu with ⟨cell, _, rfl⟩
      rfl
  · rw [hasFmtAt_foldBatch]

/-- **C7** (confirmed).  For every selection and boolean attribute, each
batch toggle flips every selected cell's own current attribute value
independently (so a mixed-state selection stays mixed), cells without
formatting metadata are skipped unchanged, and two successive successful
toggles return every selected cell's attribute value — as the code reads it,
an absent attribute reading as false — to its original value. -/
theorem C7_toggle_twice_restores_attribute (reportId : String) (sel : SelectionState)
    (attr : FormatAttr) (data : AdapterData) (p : CellPosition)
    (hp : p ∈ getSelectedCells sel) :
    readAttr ((applyFormattingToSelection reportId .success sel attr
        (applyFormattingToSelection reportId .success sel attr data)).cellMetadata
        (generateCellKey reportId p.row p.column)) attr
      = readAttr (data.cellMetadata (generateCellKey reportId p.row p.column)) attr ∧
    (hasFmtAt data.cellMetadata (generateCellKey reportId p.row p.column) = true →
      readAttr ((applyFormattingToSelection reportId .success sel attr data).cellMetadata
          (generateCellKey reportId p.row p.column)) attr
        = !(readAttr (data.cellMetadata (generateCellKey reportId p.row p.column)) attr)) ∧
    (hasFmtAt data.cellMetadata (generateCellKey reportId p.row p.column) = false →
      readAttr ((applyFormattingToSelection reportId .success sel attr data).cellMetadata
          (generateCellKey reportId p.row p.column)) attr
        = readAttr (data.cellMetadata (generateCellKey reportId p.row p.column)) attr) := by
  obtain ⟨h1read, h1fmt⟩ := applyFormatting_readAttr reportId sel attr data p hp
  obtain ⟨h2read, h2fmt⟩ := applyFormatting_readAttr reportId sel attr
    (applyFormattingToSelection reportId .success sel attr data) p hp
  refine ⟨?_, ?_, ?_⟩
  · rw [h2read, h1fmt, h1read]
    by_cases hf : hasFmtAt data.cellMetadata (generateCellKey reportId p.row p.column) = true
    · simp [hf]
    · simp [hf]
  · intro hf
    rw [h1read, if_pos hf]
  · intro hf
    rw [h1read, if_neg (by simp [hf])]

/-- Witness for C7: a bold cell under a single-cell selection; one toggle
turns bold off, a second turns it back on. -/
theorem C7_toggle_twice_restores_attribute_witness :
    readAttr ((applyFormattingToSelection "report1000" .success
        (selectCell { row := 0, column := 0 }) .bold
        (applyFormattingToSelection "report1000" .success
          (selectCell { row := 0, column := 0 }) .bold formattedCellData)).cellMetadata
        (generateCellKey "report1000" 0 0)) .bold = true ∧
    readAttr ((applyFormattingToSelection "report1000" .success
        (selectCell { row := 0, column := 0 }) .bold formattedCellData).cellMetadata
        (generateCellKey "report1000" 0 0)) .bold = false := by
  have h := C7_toggle_twice_restores_attribute "report1000"
    (selectCell { row := 0, column := 0 }) .bold formattedCellData
    { row := 0, column := 0 } (by decide)
  constructor
  · rw [h.1]
    decide
  · rw [h.2.1 (by decide)]
    decide


/-- Counterexample for C1: from the all-none initial state, a single
`toggleCellSelection` produces a `single` selection while leaving
`activeCell` none — the operation never updates `activeCell`, so
"`activeCell` is non-none whenever `selectedCells` is non-none" fails. -/
theorem C1_counterexample :
    (runSelOps [SelOp.toggleCellSelectionOp { row := 0, column := 0 }]
        initialSelectionState).selectedCells
      = some (.single (some { row := 0, column := 0 })) ∧
    (runSelOps [SelOp.toggleCellSelectionOp { row := 0, column := 0 }]
        initialSelectionState).activeCell = none := by
  decide

theorem navStep_mem (d : Direction) (rg : CellRange) (p : CellPosition)
    (hp : InBox rg p) : InBox rg (navStep d rg p) := by
  obtain ⟨pr, pc⟩ := p
  unfold InBox at hp ⊢
  unfold navStep
  dsimp only at hp ⊢
  cases d <;> dsimp only <;> split_ifs <;> (try dsimp only at *) <;> omega

theorem selOp_preserves_rangeInv (op : SelOp) (s : SelectionState)
    (h : RangeActiveInv s) : RangeActiveInv (applySelOp s op) := by
  cases op with
  | selectCellOp p =>
    intro rg hrg
    simp [applySelOp, selectCell] at hrg
  | selectRangeOp a b =>
    intro rg hrg
    simp only [applySelOp, selectRange, Option.some.injEq, SelectedCells.range.injEq] at hrg
    refine ⟨a, rfl, ?_⟩
    subst hrg
    unfold InBox
    dsimp only
    omega
  | toggleCellSelectionOp p =>
    intro rg hrg
    simp only [applySelOp] at hrg
    unfold toggleCellSelection at hrg
    cases hsc : s.selectedCells with
    | none =>
      rw [hsc] at hrg
      simp at hrg
    | some sc =>
      rw [hsc] at hrg
      cases sc with
      | single sp =>
        cases sp with
        | none =>
          dsimp only at hrg
          rw [hsc] at hrg
          simp at hrg
        | some q =>
          dsimp only at hrg
          split_ifs at hrg <;> simp_all
      | range rp =>
        simp at hrg
      | multiple mp =>
        cases mp with
        | none =>
          dsimp only at hrg
          rw [hsc] at hrg
          simp at hrg
        | some l =>
          dsimp only at hrg
          cases hidx : l.findIdx?
              (fun cell => decide (cell.row = p.row ∧ cell.column = p.column)) with
          | none =>
            rw [hidx] at hrg
            simp at hrg
          | some i =>
            rw [hidx] at hrg
            dsimp only at hrg
            split_ifs at hrg <;> simp_all
  | startSelectionOp p =>
    intro rg hrg
    simp [applySelOp, startSelection] at hrg
  | updateSelectionOp p =>
    intro rg hrg
    simp only [applySelOp] at hrg ⊢
    unfold updateSelection at hrg ⊢
    cases hst : s.selectionStart with
    | none =>
      try simp only [hst] at hrg ⊢
      exact h rg hrg
    | some selStart =>
      try simp only [hst] at hrg ⊢
      try dsimp only at hrg ⊢
      split_ifs at hrg ⊢ with h1 h2
      · exact h rg hrg
      · simp at hrg
      · simp only [Option.some.injEq, SelectedCells.range.injEq] at hrg
        refine ⟨selStart, rfl, ?_⟩
        rw [← hrg]
        unfold InBox
        dsimp only
        omega
  | endSelectionOp =>
    intro rg hrg
    simp only [applySelOp, endSelection] at hrg
    obtain ⟨a, ha, hbox⟩ := h rg hrg
    exact ⟨a, ha, hbox⟩
  | clearSelectionOp =>
    intro rg hrg
    simp [applySelOp, clearSelection] at hrg
  | navigateWithinRangeOp d =>
    intro rg hrg
    simp only [applySelOp] at hrg ⊢
    unfold navigateWithinRange at hrg ⊢
    cases hsc : s.selectedCells with
    | none =>
      try simp only [hsc] at hrg ⊢
      exact Option.noConfusion hrg
    | some sc =>
      cases sc with
      | single sp =>
        try simp only [hsc] at hrg ⊢
        simp at hrg
      | multiple mp =>
        try simp only [hsc] at hrg ⊢
        simp at hrg
      | range rp =>
        cases rp with
        | none =>
          try simp only [hsc] at hrg ⊢
          simp at hrg
        | some rg0 =>
          cases hac : s.activeCell with
          | none =>
            obtain ⟨a1, ha1, _⟩ := h rg0 hsc
            rw [hac] at ha1
            exact Option.noConfusion ha1
          | some a0 =>
            try simp only [hsc, hac] at hrg ⊢
            try dsimp only at hrg ⊢
            simp only [Option.some.injEq, SelectedCells.range.injEq] at hrg
            obtain ⟨a1, ha1, hbox1⟩ := h rg0 hsc
            rw [hac] at ha1
            cases ha1
            rw [← hrg]
            exact ⟨navStep d rg0 a0, rfl, navStep_mem d rg0 a0 hbox1⟩

theorem selOp_preserves_selInv (op : SelOp) (s : SelectionState)
    (hop : isToggleOp op = false) (h : SelInv s) : SelInv (applySelOp s op) := by
  obtain ⟨hsome, hrange⟩ := h
  refine ⟨?_, selOp_preserves_rangeInv op s hrange⟩
  cases op with
  | selectCellOp p => simp [applySelOp, selectCell]
  | selectRangeOp a b => simp [applySelOp, selectRange]
  | toggleCellSelectionOp p => simp [isToggleOp] at hop
  | startSelectionOp p => simp [applySelOp, startSelection]
  | updateSelectionOp p =>
    simp only [applySelOp]
    unfold updateSelection
    cases hst : s.selectionStart with
    | none => exact hsome
    | some selStart =>
      dsimp only
      split_ifs with h1 h2
      · exact hsome
      · simp
      · simp
  | endSelectionOp =>
    simp only [applySelOp, endSelection]
    exact hsome
  | clearSelectionOp =>
    simp [applySelOp, clearSelection]
  | navigateWithinRangeOp d =>
    simp only [applySelOp]
    unfold navigateWithinRange
    cases hsc : s.selectedCells with
    | none => exact hsome
    | some sc =>
      cases sc with
      | single sp => exact hsome
      | multiple mp => exact hsome
      | range rp =>
        cases rp with
        | none => exact hsome
        | some rg0 =>
          cases hac : s.activeCell with
          | none => exact hsome
          | some a0 =>
            dsimp only
            simp

theorem runSelOps_preserves_rangeInv (ops : List SelOp) :
    ∀ s, RangeActiveInv s → RangeActiveInv (runSelOps ops s) := by
  induction ops with
  | nil => exact fun s h => h
  | cons op rest ih =>
    intro s h
    exact ih _ (selOp_preserves_rangeInv op s h)

theorem runSelOps_preserves_selInv (ops : List SelOp)
    (hops : ∀ op ∈ ops, isToggleOp op = false) :
    ∀ s, SelInv s → SelInv (runSelOps ops s) := by
  induction ops with
  | nil => exact fun s h => h
  | cons op rest ih =>
    intro s h
    exact ih (fun o ho => hops o (List.mem_cons_of_mem op ho)) _
      (selOp_preserves_selInv op s (hops op (List.mem_cons_self op rest)) h)

/-- **C1** (corrected).  For every operation sequence from the initial
state, whenever `selectedCells` is a range the active cell exists and lies
inside the range's normalized bounding box; and the full invariant
(`activeCell` non-none whenever `selectedCells` is non-none) holds for every
sequence that avoids `toggleCellSelection` — which never updates
`activeCell` and therefore breaks the non-none half (see the
counterexample). -/
theorem C1_selection_invariant_amended (ops : List SelOp) :
    RangeActiveInv (runSelOps ops initialSelectionState) ∧
    ((∀ op ∈ ops, isToggleOp op = false) →
      SelInv (runSelOps ops initialSelectionState)) := by
  constructor
  · apply runSelOps_preserves_rangeInv
    intro rg hrg
    simp [initialSelectionState] at hrg
  · intro hops
    apply runSelOps_preserves_selInv ops hops
    constructor
    · intro hne
      simp [initialSelectionState] at hne
    · intro rg hrg
      simp [initialSelectionState] at hrg

/-- Witness for C1: a range selection followed by a navigation step
satisfies both invariant halves. -/
theorem C1_selection_invariant_amended_witness :
    RangeActiveInv (runSelOps
      [SelOp.selectRangeOp { row := 0, column := 0 } { row := 1, column := 1 },
       SelOp.navigateWithinRangeOp .next] initialSelectionState) ∧
    SelInv (runSelOps
      [SelOp.selectRangeOp { row := 0, column := 0 } { row := 1, column := 1 },
       SelOp.navigateWithinRangeOp .next] initialSelectionState) :=
  ⟨(C1_selection_invariant_amended
      [SelOp.selectRangeOp { row := 0, column := 0 } { row := 1, column := 1 },
       SelOp.navigateWithinRangeOp .next]).1,
   (C1_selection_invariant_amended
      [SelOp.selectRangeOp { row := 0, column := 0 } { row := 1, column := 1 },
       SelOp.navigateWithinRangeOp .next]).2 (by decide)⟩


theorem boxIdx_lt (rg : CellRange) (p : CellPosition) (hp : InBox rg p) :
    boxIdx rg p < boxH rg * boxW rg := by
  obtain ⟨pr, pc⟩ := p
  unfold InBox at hp
  unfold boxIdx boxH boxW
  dsimp only at hp ⊢
  set minR := min rg.start.row rg.«end».row with hminR
  set maxR := max rg.start.row rg.«end».row with hmaxR
  set minC := min rg.start.column rg.«end».column with hminC
  set maxC := max rg.start.column rg.«end».column with hmaxC
  have h1 : pr - minR + 1 ≤ maxR + 1 - minR := by omega
  have h3 : (pr - minR + 1) * (maxC + 1 - minC)
      = (pr - minR) * (maxC + 1 - minC) + (maxC + 1 - minC) :=
    Nat.succ_mul _ _
  have h4 : (pr - minR + 1) * (maxC + 1 - minC) ≤ (maxR + 1 - minR) * (maxC + 1 - minC) :=
    Nat.mul_le_mul_right _ h1
  omega

theorem boxIdx_next (rg : CellRange) (p : CellPosition) (hp : InBox rg p) :
    boxIdx rg (navStep .next rg p) = (boxIdx rg p + 1) % (boxH rg * boxW rg) := by
  have hmem := navStep_mem .next rg p hp
  have hlt := boxIdx_lt rg _ hmem
  obtain ⟨pr, pc⟩ := p
  unfold InBox at hp
  dsimp only at hp
  unfold navStep at hlt ⊢
  dsimp only at hlt ⊢
  by_cases h1 : pc < max rg.start.column rg.«end».column
  · rw [if_pos h1] at hlt ⊢
    have e1 : boxIdx rg { row := pr, column := pc + 1 }
        = boxIdx rg { row := pr, column := pc } + 1 := by
      unfold boxIdx
      dsimp only
      omega
    rw [e1, Nat.mod_eq_of_lt (e1 ▸ hlt)]
  · rw [if_neg h1] at hlt ⊢
    by_cases h2 : pr < max rg.start.row rg.«end».row
    · rw [if_pos h2] at hlt ⊢
      have e2 : boxIdx rg { row := pr + 1, column := min rg.start.column rg.«end».column }
          = boxIdx rg { row := pr, column := pc } + 1 := by
        unfold boxIdx boxW
        dsimp only
        have e : pr + 1 - min rg.start.row rg.«end».row
            = (pr - min rg.start.row rg.«end».row) + 1 := by omega
        rw [e, Nat.succ_mul]
        omega
      rw [e2, Nat.mod_eq_of_lt (e2 ▸ hlt)]
    · rw [if_neg h2] at hlt ⊢
      have eN : boxIdx rg { row := pr, column := pc } + 1 = boxH rg * boxW rg := by
        unfold boxIdx boxH boxW
        dsimp only
        have e : max rg.start.row rg.«end».row + 1 - min rg.start.row rg.«end».row
            = (pr - min rg.start.row rg.«end».row) + 1 := by omega
        rw [e, Nat.succ_mul]
        omega
      rw [eN, Nat.mod_self]
      unfold boxIdx
      dsimp only
      rw [Nat.sub_self, Nat.zero_mul, Nat.sub_self]

theorem navStep_prev_next (rg : CellRange) (p : CellPosition) (hp : InBox rg p) :
    navStep .previous rg (navStep .next rg p) = p := by
  obtain ⟨pr, pc⟩ := p
  unfold InBox at hp
  dsimp only at hp
  unfold navStep
  dsimp only
  by_cases h1 : pc < max rg.start.column rg.«end».column
  · rw [if_pos h1]
    rw [if_pos (show min rg.start.column rg.«end».column < pc + 1 by omega)]
    dsimp only
    have : pc + 1 - 1 = pc := by omega
    rw [this]
  · rw [if_neg h1]
    by_cases h2 : pr < max rg.start.row rg.«end».row
    · rw [if_pos h2]
      rw [if_neg (lt_irrefl (min rg.start.column rg.«end».column)),
        if_pos (show min rg.start.row rg.«end».row < pr + 1 by omega)]
      dsimp only
      have er : pr + 1 - 1 = pr := by omega
      have ec : max rg.start.column rg.«end».column = pc := by omega
      rw [er, ec]
    · rw [if_neg h2]
      rw [if_neg (lt_irrefl (min rg.start.column rg.«end».column)),
        if_neg (lt_irrefl (min rg.start.row rg.«end».row))]
      have er : max rg.start.row rg.«end».row = pr := by omega
      have ec : max rg.start.column rg.«end».column = pc := by omega
      rw [er, ec]

theorem navStep_next_prev (rg : CellRange) (p : CellPosition) (hp : InBox rg p) :
    navStep .next rg (navStep .previous rg p) = p := by
  obtain ⟨pr, pc⟩ := p
  unfold InBox at hp
  dsimp only at hp
  unfold navStep
  dsimp only
  by_cases h1 : min rg.start.column rg.«end».column < pc
  · rw [if_pos h1]
    rw [if_pos (show pc - 1 < max rg.start.column rg.«end».column by omega)]
    dsimp only
    have : pc - 1 + 1 = pc := by omega
    rw [this]
  · rw [if_neg h1]
    by_cases h2 : min rg.start.row rg.«end».row < pr
    · rw [if_pos h2]
      rw [if_neg (lt_irrefl (max rg.start.column rg.«end».column)),
        if_pos (show pr - 1 < max rg.start.row rg.«end».row by omega)]
      dsimp only
      have er : pr - 1 + 1 = pr := by omega
      have ec : min rg.start.column rg.«end».column = pc := by omega
      rw [er, ec]
    · rw [if_neg h2]
      rw [if_neg (lt_irrefl (max rg.start.column rg.«end».column)),
        if_neg (lt_irrefl (max rg.start.row rg.«end».row))]
      have er : min rg.start.row rg.«end».row = pr := by omega
      have ec : min rg.start.column rg.«end».column = pc := by omega
      rw [er, ec]

theorem navStep_next_iter (rg : CellRange) (a : CellPosition) (ha : InBox rg a) :
    ∀ k : Nat, InBox rg ((fun q => navStep .next rg q)^[k] a) ∧
      boxIdx rg ((fun q => navStep .next rg q)^[k] a)
        = (boxIdx rg a + k) % (boxH rg * boxW rg) := by
  intro k
  induction k with
  | zero =>
    refine ⟨ha, ?_⟩
    simp [Nat.mod_eq_of_lt (boxIdx_lt rg a ha)]
  | succ k ih =>
    obtain ⟨hm, hidx⟩ := ih
    rw [Function.iterate_succ_apply']
    refine ⟨navStep_mem .next rg _ hm, ?_⟩
    rw [boxIdx_next rg _ hm, hidx, Nat.mod_add_mod, Nat.add_assoc]

theorem boxIdx_inj (rg : CellRange) (p q : CellPosition) (hp : InBox rg p) (hq : InBox rg q)
    (h : boxIdx rg p = boxIdx rg q) : p = q := by
  obtain ⟨pr, pc⟩ := p
  obtain ⟨qr, qc⟩ := q
  unfold InBox at hp hq
  unfold boxIdx boxW at h
  dsimp only at hp hq h
  set minR := min rg.start.row rg.«end».row with hminR
  set minC := min rg.start.column rg.«end».column with hminC
  set maxC := max rg.start.column rg.«end».column with hmaxC
  have hW : 0 < maxC + 1 - minC := by omega
  have hpc : pc - minC < maxC + 1 - minC := by omega
  have hqc : qc - minC < maxC + 1 - minC := by omega
  rw [Nat.mul_comm (pr - minR) (maxC + 1 - minC),
    Nat.mul_comm (qr - minR) (maxC + 1 - minC)] at h
  have h1 := congrArg (fun x => x / (maxC + 1 - minC)) h
  dsimp only at h1
  rw [Nat.mul_add_div hW, Nat.mul_add_div hW,
    Nat.div_eq_of_lt hpc, Nat.div_eq_of_lt hqc] at h1
  have hrow : pr - minR = qr - minR := by omega
  rw [hrow] at h
  have hr : pr = qr := by omega
  have hc : pc = qc := by omega
  rw [hr, hc]

theorem navigate_iterate (rg : CellRange) (a : CellPosition) (s : SelectionState)
    (hsel : s.selectedCells = some (.range (some rg)))
    (hact : s.activeCell = some a) :
    ∀ k : Nat, (fun t => (navigateWithinRange .next t).2)^[k] s
      = { s with activeCell := some ((fun q => navStep .next rg q)^[k] a) } := by
  intro k
  induction k with
  | zero =>
    simp only [Function.iterate_zero, id_eq]
    rw [← hact]
  | succ k ih =>
    rw [Function.iterate_succ_apply', ih, Function.iterate_succ_apply']
    unfold navigateWithinRange
    dsimp only
    rw [hsel]

/-- **C5** (confirmed).  On a range selection with the active cell inside
the normalized box: every call moves one step in row-major order (index
characterization with wraparound), returns `true`, `previous` is the exact
two-sided inverse of `next`, `height*width` consecutive `next` calls return
the state (hence the active cell) to its original value, every intermediate
call also returns `true`, and `navigateWithinRange` returns `false` leaving
the state unchanged whenever the selection is not a (non-null) range or the
active cell is none. -/
theorem C5_navigate_row_major_cycle (rg : CellRange) (a : CellPosition)
    (s : SelectionState) (d : Direction)
    (hsel : s.selectedCells = some (.range (some rg)))
    (hact : s.activeCell = some a)
    (hbox : InBox rg a) :
    navigateWithinRange d s = (true, { s with activeCell := some (navStep d rg a) }) ∧
    boxIdx rg (navStep .next rg a) = (boxIdx rg a + 1) % (boxH rg * boxW rg) ∧
    navStep .previous rg (navStep .next rg a) = a ∧
    navStep .next rg (navStep .previous rg a) = a ∧
    (∀ k : Nat,
      (navigateWithinRange .next
        ((fun t => (navigateWithinRange .next t).2)^[k] s)).1 = true) ∧
    (fun t => (navigateWithinRange .next t).2)^[boxH rg * boxW rg] s = s ∧
    (∀ t : SelectionState,
      ((∀ rg2, t.selectedCells ≠ some (.range (some rg2))) ∨ t.activeCell = none) →
      navigateWithinRange d t = (false, t)) := by
  refine ⟨?_, boxIdx_next rg a hbox, navStep_prev_next rg a hbox,
    navStep_next_prev rg a hbox, ?_, ?_, ?_⟩
  · unfold navigateWithinRange
    rw [hsel, hact]
  · intro k
    rw [navigate_iterate rg a s hsel hact k]
    unfold navigateWithinRange
    dsimp only
    rw [hsel]
  · rw [navigate_iterate rg a s hsel hact _]
    have hiter := navStep_next_iter rg a hbox (boxH rg * boxW rg)
    have hfix : (fun q => navStep .next rg q)^[boxH rg * boxW rg] a = a := by
      refine boxIdx_inj rg _ a hiter.1 hbox ?_
      rw [hiter.2, Nat.add_mod_right, Nat.mod_eq_of_lt (boxIdx_lt rg a hbox)]
    rw [hfix, ← hact]
  · intro t ht
    unfold navigateWithinRange
    rcases ht with h | h
    · cases hsc : t.selectedCells with
      | none => rfl
      | some sc =>
        cases sc with
        | single sp => rfl
        | multiple mp => rfl
        | range rp =>
          cases rp with
          | none => rfl
          | some rg2 => exact absurd hsc (h rg2)
    · rw [h]
      cases hsc : t.selectedCells with
      | none => rfl
      | some sc =>
        cases sc with
        | single sp => rfl
        | multiple mp => rfl
        | range rp =>
          cases rp with
          | none => rfl
          | some rg2 => rfl

/-- Witness for C5: a 2×2 range from (0,0) to (1,1); one `next` call moves
the active cell, four calls return to the start, and navigation on the
initial (no-range) state returns `false` unchanged. -/
theorem C5_navigate_row_major_cycle_witness :
    navigateWithinRange .next
        (selectRange { row := 0, column := 0 } { row := 1, column := 1 }
          initialSelectionState)
      = (true, { selectRange { row := 0, column := 0 } { row := 1, column := 1 }
            initialSelectionState with
          activeCell := some (navStep .next
            { start := { row := 0, column := 0 }, «end» := { row := 1, column := 1 } }
            { row := 0, column := 0 }) }) ∧
    (fun t => (navigateWithinRange .next t).2)^[
        boxH { start := { row := 0, column := 0 }, «end» := { row := 1, column := 1 } } *
        boxW { start := { row := 0, column := 0 }, «end» := { row := 1, column := 1 } }]
      (selectRange { row := 0, column := 0 } { row := 1, column := 1 }
        initialSelectionState)
      = selectRange { row := 0, column := 0 } { row := 1, column := 1 }
          initialSelectionState ∧
    navigateWithinRange .next initialSelectionState = (false, initialSelectionState) := by
  have h := C5_navigate_row_major_cycle
    { start := { row := 0, column := 0 }, «end» := { row := 1, column := 1 } }
    { row := 0, column := 0 }
    (selectRange { row := 0, column := 0 } { row := 1, column := 1 }
      initialSelectionState)
    .next rfl rfl (by decide)
  exact ⟨h.1, h.2.2.2.2.2.1,
    h.2.2.2.2.2.2 initialSelectionState
      (Or.inl (fun rg2 hc => Option.noConfusion hc))⟩

end Grid
